import Mathlib

/-!
  # bsv-trust — shallow embedding and verification of the spec's claims

  This file embeds the core of the `bsv-trust` repository in Lean 4:

  * the covenant contracts `Bond` (src/contracts/bond.ts) and `Escrow`
    (src/contracts/escrow.ts), as boolean spend predicates over an explicit
    script context (locktime, spent-UTXO value, committed-outputs digest);
  * the canonical output serialization used by the commitment checks
    (scrypt-ts `Utils.buildOutput` / `Utils.buildPublicKeyHashScript`);
  * the transaction builders of the companion CLI scripts
    (release-bond.cjs, timeout-escrow.cjs);
  * the ASSERT1 assertion encoder (assert.cjs) and verifier
    (verify-assert.cjs), modelled as a pure function of the record's data
    pushes and of the chain oracle's query-time responses.

  Cryptographic primitives (double SHA-256 digests, ECDSA signatures) are
  external library calls in the source. The contracts and the verifier only
  ever observe digest equality and signature validity, so they are modelled
  at the standard idealized level: digests are injective functions of the
  hashed bytes, and a signature is valid exactly for the key that produced
  it over the exact message that was signed. Every definition is executable.
-/

/-! ## Bytes and idealized cryptography -/

/-- Byte strings are lists of naturals (each entry one byte). -/
abbrev Bytes := List Nat

/-- Idealized SHA-256 digest. The source (assert.cjs line 445,
verify-assert.cjs line 146) uses `crypto.createHash('sha256')` and only ever
compares the resulting digests for equality, so we model the digest as an
injective — here, the identity — function of the hashed bytes; this is the
usual collision-free idealization. -/
def sha256 (bs : Bytes) : Bytes := bs

/-- Idealized double SHA-256 (`hash256` of scrypt-ts), used by the covenant
contracts solely to compare the spending transaction's committed-outputs
digest with the digest of the expected outputs. Modelled as an injective
(identity) function of the serialized outputs, the collision-free
idealization. -/
def hash256 (bs : Bytes) : Bytes := sha256 (sha256 bs)

/-- Public keys are modelled as naturals. -/
abbrev PubKey := Nat

/-- Private keys are modelled as naturals. -/
abbrev PrivKey := Nat

/-- The public key derived from a private key. In the idealized signature
model the derivation is an injective map from private to public keys; we
take the identity. -/
def pubKeyOf (k : PrivKey) : PubKey := k

/-- Idealized transaction signature as checked by scrypt-ts `checkSig`:
a signature carries the key that produced it, and `checkSig` succeeds
exactly when that key is the expected one (perfect unforgeability). -/
structure Sig where
  signer : PubKey
deriving DecidableEq, Repr

/-- scrypt-ts `this.checkSig(sig, pub)`: the signature is valid exactly for
the key that produced it. -/
def checkSig (sig : Sig) (pub : PubKey) : Bool :=
  sig.signer == pub

/-- Idealized ECDSA signature over an explicit message digest, as produced
by `bsv.crypto.ECDSA.sign(msgHash, privKey)` in assert.cjs line 447: it
carries the signing key's public key and the exact digest signed. -/
structure ECSig where
  signer : PubKey
  msg : Bytes
deriving DecidableEq, Repr

/-- assert.cjs line 447: sign a digest with a private key. -/
def ecdsaSign (k : PrivKey) (msgHash : Bytes) : ECSig :=
  ⟨pubKeyOf k, msgHash⟩

/-- verify-assert.cjs lines 149–155: verify an ECDSA signature against a
digest and a public key. Valid exactly when the signature was produced by
that key over that digest. -/
def ecdsaVerify (sig : ECSig) (msgHash : Bytes) (pub : PubKey) : Bool :=
  sig.signer == pub && sig.msg == msgHash

/-- DER serialization of a signature (`sig.toDER()`), modelled as the
injective encoding that conses the signer onto the signed digest. -/
def sigToDER (s : ECSig) : Bytes :=
  s.signer :: s.msg

/-- DER parsing (`bsv.crypto.Signature.fromDER`): partial inverse of
`sigToDER`; fails (the source throws) on an empty byte string. -/
def sigFromDER : Bytes → Option ECSig
  | [] => none
  | k :: m => some ⟨k, m⟩

/-- Serialized public key bytes (`pubKey.toBuffer()`), modelled as the
one-entry list holding the key. -/
def pubKeyToBytes (pk : PubKey) : Bytes := [pk]

/-- `bsv.PublicKey.fromBuffer`: partial inverse of `pubKeyToBytes`; the
source throws on bytes that are not a valid curve point. -/
def pubKeyFromBytes : Bytes → Option PubKey
  | [pk] => some pk
  | _ => none

/-! ## Output commitment model

  Canonical serialization of transaction outputs, as produced by scrypt-ts
  `Utils.buildOutput` (value as 8-byte little-endian integer, then the
  length-prefixed locking script) and consumed by `hash256` for the
  covenant commitment checks. -/

/-- A transaction output: a locking script and a satoshi value. -/
structure TxOut where
  script : Bytes
  value : Nat
deriving DecidableEq, Repr

/-- 8-byte little-endian serialization of a satoshi value (int64 on the
wire; values are reduced modulo 2^64 as the wire format forces). -/
def le64 (a : Nat) : Bytes :=
  [a % 256, a / 256 % 256, a / 65536 % 256, a / 16777216 % 256,
   a / 4294967296 % 256, a / 1099511627776 % 256,
   a / 281474976710656 % 256, a / 72057594037927936 % 256]

/-- Bitcoin variable-length integer, used as the script length prefix in a
serialized output. -/
def varint (n : Nat) : Bytes :=
  if n < 253 then [n]
  else if n < 65536 then [253, n % 256, n / 256 % 256]
  else if n < 4294967296 then
    [254, n % 256, n / 256 % 256, n / 65536 % 256, n / 16777216 % 256]
  else 255 :: le64 n

/-- scrypt-ts `Utils.buildPublicKeyHashScript(pkh)` (also
`bsv.Script.buildPublicKeyHashOut`): the standard pay-to-public-key-hash
locking script `OP_DUP OP_HASH160 <push 20> pkh OP_EQUALVERIFY
OP_CHECKSIG`. -/
def buildPublicKeyHashScript (pkh : Bytes) : Bytes :=
  0x76 :: 0xa9 :: 0x14 :: (pkh ++ [0x88, 0xac])

/-- scrypt-ts `Utils.buildOutput(script, amount)`: canonical serialization
of one output — value as 8-byte little-endian, then the length-prefixed
locking script. -/
def buildOutput (script : Bytes) (amount : Nat) : Bytes :=
  le64 amount ++ (varint script.length ++ script)

/-- scrypt-ts `Utils.buildPublicKeyHashOutput(pkh, amount)`: one canonical
destination output paying `amount` to the hash `pkh`. -/
def buildPublicKeyHashOutput (pkh : Bytes) (amount : Nat) : Bytes :=
  buildOutput (buildPublicKeyHashScript pkh) amount

/-- Canonical serialization of an ordered list of outputs: the
concatenation of each output's canonical serialization. This is what the
ledger's signature-hash procedure digests into the transaction's
`hashOutputs` field under SIGHASH_ALL. -/
def serializeOutputs (outs : List TxOut) : Bytes :=
  outs.foldr (fun o acc => buildOutput o.script o.value ++ acc) []

/-- Total satoshi value carried by a list of outputs. -/
def totalValue (outs : List TxOut) : Nat :=
  outs.foldr (fun o acc => o.value + acc) 0

/-! ## Script context and covenant contracts -/

/-- The part of the scrypt-ts `ScriptContext` the contracts read: the
enclosing transaction's declared lock time (`this.ctx.locktime`), the value
of the UTXO being spent (`this.ctx.utxo.value`), and the digest of the
transaction's own serialized outputs (`this.ctx.hashOutputs`). -/
structure ScriptContext where
  locktime : Nat
  utxoValue : Nat
  hashOutputs : Bytes
deriving DecidableEq, Repr

/-- The change information scrypt-ts exposes to `buildChangeOutput`: the
transaction's designated change address hash and change amount (zero when
the spending transaction carries no change output). -/
structure ChangeInfo where
  changeAddress : Bytes
  changeAmount : Nat
deriving DecidableEq, Repr

/-- scrypt-ts `this.buildChangeOutput()`: the serialized change output when
the change amount is positive, and the empty byte string otherwise. -/
def buildChangeOutput (chg : ChangeInfo) : Bytes :=
  if 0 < chg.changeAmount then
    buildPublicKeyHashOutput chg.changeAddress chg.changeAmount
  else []

/-- The `Bond` covenant's on-chain fields (src/contracts/bond.ts lines
25–59). -/
structure Bond where
  bondholderPkh : Bytes
  bondholderPub : PubKey
  lockUntil : Nat
  slasherPub : PubKey
  slashDestPkh : Bytes
deriving DecidableEq, Repr

/-- `Bond.release(sig)` (bond.ts lines 61–75): the bondholder's signature
must verify, the transaction's lock time must be at least `lockUntil`, and
the transaction's committed outputs must be exactly one output paying the
full spent-UTXO value to the bondholder's hash followed by the change
output. The method takes no payout amount. -/
def Bond.release (b : Bond) (ctx : ScriptContext) (chg : ChangeInfo)
    (sig : Sig) : Bool :=
  checkSig sig b.bondholderPub &&
  decide (b.lockUntil ≤ ctx.locktime) &&
  (ctx.hashOutputs ==
    hash256 (buildPublicKeyHashOutput b.bondholderPkh ctx.utxoValue ++
      buildChangeOutput chg))

/-- `Bond.slash(sig)` (bond.ts lines 77–90): the slasher's signature must
verify (no time restriction), and the committed outputs must pay the full
spent-UTXO value to the slash destination hash followed by the change
output. The method takes no payout amount. -/
def Bond.slash (b : Bond) (ctx : ScriptContext) (chg : ChangeInfo)
    (sig : Sig) : Bool :=
  checkSig sig b.slasherPub &&
  (ctx.hashOutputs ==
    hash256 (buildPublicKeyHashOutput b.slashDestPkh ctx.utxoValue ++
      buildChangeOutput chg))

/-- The `Escrow` covenant's on-chain fields (src/contracts/escrow.ts lines
14–46). -/
structure Escrow where
  requesterPub : PubKey
  requesterPkh : Bytes
  workerPub : PubKey
  workerPkh : Bytes
  timeoutBlock : Nat
deriving DecidableEq, Repr

/-- `Escrow.approve(sig, amount)` (escrow.ts lines 49–57): requester-signed,
`0 < amount ≤` the spent UTXO's value, and the committed outputs are exactly
one output paying `amount` to the worker's hash. -/
def Escrow.approve (e : Escrow) (ctx : ScriptContext) (sig : Sig)
    (amount : Nat) : Bool :=
  checkSig sig e.requesterPub &&
  (decide (0 < amount) && decide (amount ≤ ctx.utxoValue)) &&
  (ctx.hashOutputs == hash256 (buildPublicKeyHashOutput e.workerPkh amount))

/-- `Escrow.refund(sig, amount)` (escrow.ts lines 60–68): worker-signed,
`0 < amount ≤` the spent UTXO's value, and the committed outputs are exactly
one output paying `amount` back to the requester's hash. -/
def Escrow.refund (e : Escrow) (ctx : ScriptContext) (sig : Sig)
    (amount : Nat) : Bool :=
  checkSig sig e.workerPub &&
  (decide (0 < amount) && decide (amount ≤ ctx.utxoValue)) &&
  (ctx.hashOutputs ==
    hash256 (buildPublicKeyHashOutput e.requesterPkh amount))

/-- `Escrow.timeout(sig, amount)` (escrow.ts lines 71–80): requester-signed,
the transaction's lock time must be at least `timeoutBlock`,
`0 < amount ≤` the spent UTXO's value, and the committed outputs are exactly
one output paying `amount` to the requester's hash. -/
def Escrow.timeout (e : Escrow) (ctx : ScriptContext) (sig : Sig)
    (amount : Nat) : Bool :=
  checkSig sig e.requesterPub &&
  decide (e.timeoutBlock ≤ ctx.locktime) &&
  (decide (0 < amount) && decide (amount ≤ ctx.utxoValue)) &&
  (ctx.hashOutputs ==
    hash256 (buildPublicKeyHashOutput e.requesterPkh amount))

/-! ## Transaction builders (companion CLI scripts) -/

/-- The fields of the unsigned spending transaction the CLI builders
construct: its outputs, its `nLockTime` field, and the sequence field of
its single contract-spending input. -/
structure BuiltTx where
  outputs : List TxOut
  nLockTime : Nat
  inputSequence : Nat
deriving DecidableEq, Repr

/-- The `hashOutputs` digest the ledger's SIGHASH_ALL signature-hash
procedure computes for a built transaction: the double-SHA-256 of the
concatenated canonical output serializations. -/
def txHashOutputs (tx : BuiltTx) : Bytes :=
  hash256 (serializeOutputs tx.outputs)

/-- The bound `release` transaction builder of release-bond.cjs lines
129–151: one output paying `bondAmount - 1000` (the script's FEE) to the
bondholder, `nLockTime` set to the current chain height, and the input's
sequence set to `0xFFFFFFFE` so lock-time enforcement stays active. -/
def releaseBondTx (bondholderPkh : Bytes) (bondAmount currentHeight : Nat) :
    BuiltTx :=
  { outputs := [⟨buildPublicKeyHashScript bondholderPkh, bondAmount - 1000⟩],
    nLockTime := currentHeight,
    inputSequence := 0xFFFFFFFE }

/-- The release flow of release-bond.cjs lines 121–151: the script aborts
before building when the current height is below `lockUntil`; otherwise it
runs the bound builder. -/
def releaseBondFlow (bondholderPkh : Bytes)
    (bondAmount lockUntil currentHeight : Nat) : Option BuiltTx :=
  if currentHeight < lockUntil then none
  else some (releaseBondTx bondholderPkh bondAmount currentHeight)

/-- The bound `timeout` transaction builder of timeout-escrow.cjs lines
118–128: one output paying `escrowAmount - 500` (the script's FEE) to the
requester, `nLockTime` set to the current chain height, and the input's
sequence set to `0xFFFFFFFE`. -/
def timeoutEscrowTx (requesterPkh : Bytes) (escrowAmount currentHeight : Nat) :
    BuiltTx :=
  { outputs := [⟨buildPublicKeyHashScript requesterPkh, escrowAmount - 500⟩],
    nLockTime := currentHeight,
    inputSequence := 0xFFFFFFFE }

/-- The timeout flow of timeout-escrow.cjs lines 92–128: the script aborts
before building when the current height is below the escrow's timeout
block; otherwise it runs the bound builder. -/
def timeoutEscrowFlow (requesterPkh : Bytes)
    (escrowAmount timeoutBlock currentHeight : Nat) : Option BuiltTx :=
  if currentHeight < timeoutBlock then none
  else some (timeoutEscrowTx requesterPkh escrowAmount currentHeight)

/-! ## UTF-8 encoding and decoding

  The ASSERT1 verifier does not hash the raw topic/claim push bytes: it
  decodes them with `buf.toString('utf8')` (verify-assert.cjs lines 92–93)
  and re-encodes the resulting strings with `Buffer.from(str, 'utf8')`
  when recomputing the signed digest (lines 141–145). Node's decoder
  follows the WHATWG Encoding standard: ill-formed byte sequences are
  replaced, one replacement character U+FFFD per maximal ill-formed
  subpart, so the decode/re-encode round trip is lossy and many-to-one on
  invalid UTF-8. We model it exactly: JS strings are lists of Unicode code
  points, `utf8Encode` is `Buffer.from(str, 'utf8')`, and `utf8Decode` is
  the WHATWG byte state machine of `buf.toString('utf8')`. -/

/-- One step of the WHATWG UTF-8 decoder on a lead byte: either emit a code
point directly (ASCII, or U+FFFD on an invalid lead) or start a multi-byte
sequence carrying the partial code point, the number of continuation bytes
still needed, and the admissible range for the next byte (E0/ED and F0/F4
restrict their first continuation byte to exclude overlong and
out-of-range forms). -/
inductive Utf8Lead where
  | emit (c : Nat)
  | start (cp needed lower upper : Nat)
deriving DecidableEq, Repr

/-- Classify a lead byte per the WHATWG UTF-8 decoder. -/
def utf8Lead (b : Nat) : Utf8Lead :=
  if b < 128 then .emit b
  else if 194 ≤ b ∧ b ≤ 223 then .start (b - 192) 1 128 191
  else if b = 224 then .start 0 2 160 191
  else if b = 237 then .start 13 2 128 159
  else if 225 ≤ b ∧ b ≤ 239 then .start (b - 224) 2 128 191
  else if b = 240 then .start 0 3 144 191
  else if b = 244 then .start 4 3 128 143
  else if 241 ≤ b ∧ b ≤ 243 then .start (b - 240) 3 128 191
  else .emit 65533

/-- The WHATWG UTF-8 decoding loop (`buf.toString('utf8')` in Node). The
state is `none` between sequences, or `some (cp, needed, lower, upper)`
inside a multi-byte sequence. A continuation byte outside its admissible
range emits U+FFFD for the consumed subpart and reprocesses the byte as a
fresh lead; a truncated sequence at end of input emits one U+FFFD. -/
def utf8DecodeGo : Option (Nat × Nat × Nat × Nat) → Bytes → List Nat
  | none, [] => []
  | some _, [] => [65533]
  | none, b :: rest =>
    (match utf8Lead b with
     | .emit c => c :: utf8DecodeGo none rest
     | .start cp n lo hi => utf8DecodeGo (some (cp, n, lo, hi)) rest)
  | some (cp, n, lo, hi), b :: rest =>
    if lo ≤ b ∧ b ≤ hi then
      (if n = 1 then (cp * 64 + (b - 128)) :: utf8DecodeGo none rest
       else utf8DecodeGo (some (cp * 64 + (b - 128), n - 1, 128, 191)) rest)
    else
      65533 ::
        (match utf8Lead b with
         | .emit c => c :: utf8DecodeGo none rest
         | .start cp2 n2 lo2 hi2 => utf8DecodeGo (some (cp2, n2, lo2, hi2)) rest)

/-- `buf.toString('utf8')`: decode bytes to the string's code points, with
WHATWG replacement of ill-formed subparts. -/
def utf8Decode (bs : Bytes) : List Nat := utf8DecodeGo none bs

/-- UTF-8 encoding of one code point, as `Buffer.from(str, 'utf8')`
produces it: 1–4 bytes for Unicode scalar values; lone surrogates (which
JS strings can contain) become the replacement character's bytes, as do
the out-of-range code points a JS string cannot hold (kept total). -/
def utf8EncodeChar (c : Nat) : Bytes :=
  if c < 128 then [c]
  else if c < 2048 then [192 + c / 64, 128 + c % 64]
  else if c < 65536 then
    (if 55296 ≤ c ∧ c ≤ 57343 then [239, 191, 189]
     else [224 + c / 4096, 128 + c / 64 % 64, 128 + c % 64])
  else if c < 1114112 then
    [240 + c / 262144, 128 + c / 4096 % 64, 128 + c / 64 % 64, 128 + c % 64]
  else [239, 191, 189]

/-- `Buffer.from(str, 'utf8')`: UTF-8 encoding of a string given as its
code points. -/
def utf8Encode (s : List Nat) : Bytes :=
  s.foldr (fun c acc => utf8EncodeChar c ++ acc) []

/-- The code point a character survives encoding as: unchanged for Unicode
scalar values, U+FFFD for lone surrogates and out-of-range values. -/
def utf8Sanitize (c : Nat) : Nat :=
  if 55296 ≤ c ∧ c ≤ 57343 then 65533
  else if c < 1114112 then c
  else 65533

/-- The verifier's decode/re-encode round trip on a push's bytes:
`Buffer.from(buf.toString('utf8'), 'utf8')` (verify-assert.cjs lines 92–93
and 143–144). Lossy on invalid UTF-8: every maximal ill-formed subpart
collapses to the replacement character's bytes `EF BF BD`. -/
def utf8Normalize (bs : Bytes) : Bytes := utf8Encode (utf8Decode bs)

/-! ## ASSERT1 assertion protocol -/

/-- The literal ASCII protocol tag `ASSERT1` (7 bytes). -/
def assertTag : Bytes := [65, 83, 83, 69, 82, 84, 49]

/-- The data pushes of the OP_RETURN record built by assert.cjs lines
439–461: the tag, a one-byte version `0x01`, the bond txid byte-reversed
(little-endian), the UTF-8 encodings of the topic and claim strings
(`Buffer.from(TOPIC, 'utf8')` — the strings are given as their Unicode
code points), and the DER signature by the asserter's key over
`sha256(bondTxid ++ utf8(topic) ++ utf8(claim))` (lines 440–445, where the
digest uses the same `Buffer.from(..., 'utf8')` encodings). -/
def encodeAssertPushes (bondTxid topic claim : List Nat) (k : PrivKey) :
    List Bytes :=
  [assertTag, [1], bondTxid.reverse, utf8Encode topic, utf8Encode claim,
   sigToDER (ecdsaSign k
     (sha256 (bondTxid ++ utf8Encode topic ++ utf8Encode claim)))]

/-- The funding input's scriptSig chunks as assert.cjs lines 498–509 builds
them: the transaction signature bytes, then the signer's public key bytes
(a standard pay-to-public-key-hash input). Each chunk is `some` of its push
bytes; a pure opcode chunk would carry `none`. -/
def assertInputChunks (txSig : Bytes) (k : PrivKey) : List (Option Bytes) :=
  [some txSig, some (pubKeyToBytes (pubKeyOf k))]

/-- What the verifier knows about the referenced bond transaction after the
chain-oracle lookup in verify-assert.cjs lines 105–111: the satoshi value
of its output 0 when that output exists. -/
structure BondTxInfo where
  vout0Sats : Option Nat
deriving DecidableEq, Repr

/-- The distinct exits of verify-assert.cjs `main` after the data output has
been found and split into pushes. -/
inductive VerifyOutcome where
  /-- Line 79: fewer than five data pushes. -/
  | notEnoughPushes
  /-- Line 85: the first push is not the literal tag `ASSERT1`. -/
  | wrongTag
  /-- Line 107: the referenced bond transaction was not found. -/
  | bondNotFound
  /-- Lines 132–136 throw outside the verification `try` when the spending
  input does not expose a public key; caught by the top-level handler. -/
  | inputError
  /-- Line 170: DER decoding or verification threw inside the `try`. -/
  | sigError
  /-- Line 167: the signature did not verify. -/
  | sigInvalid
  /-- Lines 158–165: the signature verified; the report carries
  `some backing` (the bond's output-0 satoshis) when the bond UTXO is still
  unspent at query time, and `none` (no backing) when it has been spent. -/
  | verified (backing : Option Nat)
deriving DecidableEq, Repr

/-- Field extraction of verify-assert.cjs line 91: the bond txid is the
third push, byte-reversed back to display order. -/
def decodedBondTxid (dataPushes : List Bytes) : Bytes :=
  (dataPushes.getD 2 []).reverse

/-- The raw bytes of the fourth push, the stored topic. -/
def decodedTopic (dataPushes : List Bytes) : Bytes :=
  dataPushes.getD 3 []

/-- The raw bytes of the fifth push, the stored claim. -/
def decodedClaim (dataPushes : List Bytes) : Bytes :=
  dataPushes.getD 4 []

/-- Field extraction of verify-assert.cjs line 92: the topic string is the
fourth push decoded with `toString('utf8')`. -/
def decodedTopicStr (dataPushes : List Bytes) : List Nat :=
  utf8Decode (decodedTopic dataPushes)

/-- Field extraction of verify-assert.cjs line 93: the claim string is the
fifth push decoded with `toString('utf8')`. -/
def decodedClaimStr (dataPushes : List Bytes) : List Nat :=
  utf8Decode (decodedClaim dataPushes)

/-- verify-assert.cjs lines 89–172, after the malformed-record checks have
passed: extract the fields, look up the referenced bond and its query-time
spent status, recover the asserter's public key from the spending input's
second scriptSig chunk, recompute the digest over the decoded fields, and
verify the record's signature. The recomputed digest (lines 141–146) is
over the bond txid bytes (hex decode/encode of the reversed push is a
lossless byte round trip) and the `Buffer.from(..., 'utf8')` re-encodings
of the decoded topic and claim strings — `utf8Normalize` of the pushes,
the lossy UTF-8 round trip. `bondTx` and `spentTxid` are the chain
oracle's responses (`spentTxid = some t` means the bond's output 0 is
already spent by `t`); `inputChunks` are the spending input's scriptSig
chunks. -/
def verifyFields (dataPushes : List Bytes) (bondTx : Option BondTxInfo)
    (spentTxid : Option Bytes) (inputChunks : List (Option Bytes)) :
    VerifyOutcome :=
  match bondTx with
  | none => .bondNotFound
  | some bt =>
    match inputChunks.getD 1 none with
    | none => .inputError
    | some pkBytes =>
      match pubKeyFromBytes pkBytes with
      | none => .inputError
      | some asserterPubKey =>
        match (dataPushes[5]?).bind sigFromDER with
        | none => .sigError
        | some ecSig =>
          if ecdsaVerify ecSig
              (sha256 (decodedBondTxid dataPushes ++
                utf8Normalize (decodedTopic dataPushes) ++
                utf8Normalize (decodedClaim dataPushes)))
              asserterPubKey then
            .verified (if spentTxid.isNone then some (bt.vout0Sats.getD 0)
              else none)
          else .sigInvalid

/-- verify-assert.cjs lines 78–172: the whole verification flow over the
data pushes of the located OP_RETURN output — reject records with fewer
than five pushes (line 78) or whose first push is not the literal tag
`ASSERT1` (line 84), then extract fields and verify. Node's
`buf.toString('utf8')` maps exactly the bytes of the ASCII tag to the
string `ASSERT1` (invalid sequences become replacement characters), so the
source's string comparison is byte equality with `assertTag`. -/
def verifyMain (dataPushes : List Bytes) (bondTx : Option BondTxInfo)
    (spentTxid : Option Bytes) (inputChunks : List (Option Bytes)) :
    VerifyOutcome :=
  if dataPushes.length < 5 then .notEnoughPushes
  else if dataPushes.getD 0 [] ≠ assertTag then .wrongTag
  else verifyFields dataPushes bondTx spentTxid inputChunks

/-! ## Helper lemmas about the output serialization -/

/-- Two 8-byte little-endian serializations of values that fit in 64 bits
agree only on equal values. -/
theorem le64_inj {a b : Nat} (ha : a < 18446744073709551616)
    (hb : b < 18446744073709551616) (h : le64 a = le64 b) : a = b := by
  simp only [le64, List.cons.injEq, and_true] at h
  omega

/-- The little-endian value serialization is eight bytes long. -/
theorem le64_length (a : Nat) : (le64 a).length = 8 := rfl

/-- The pay-to-public-key-hash locking script of a 20-byte hash is 25 bytes
long. -/
theorem buildPublicKeyHashScript_length {pkh : Bytes} (h : pkh.length = 20) :
    (buildPublicKeyHashScript pkh).length = 25 := by
  simp [buildPublicKeyHashScript, h]

/-- For a 20-byte hash, the canonical destination output is the value bytes
followed by the one-byte length prefix `25` and the locking script. -/
theorem buildPublicKeyHashOutput_eq {pkh : Bytes} (h : pkh.length = 20)
    (a : Nat) :
    buildPublicKeyHashOutput pkh a =
      le64 a ++ (25 :: buildPublicKeyHashScript pkh) := by
  simp [buildPublicKeyHashOutput, buildOutput,
    buildPublicKeyHashScript_length h, varint]

/-- Canonical destination outputs for 20-byte hashes and 64-bit values are
pairwise distinct in the recipient hash and the amount. -/
theorem buildPublicKeyHashOutput_inj {pkh q : Bytes} {a b : Nat}
    (hp : pkh.length = 20) (hq : q.length = 20)
    (ha : a < 18446744073709551616) (hb : b < 18446744073709551616)
    (h : buildPublicKeyHashOutput pkh a = buildPublicKeyHashOutput q b) :
    pkh = q ∧ a = b := by
  rw [buildPublicKeyHashOutput_eq hp, buildPublicKeyHashOutput_eq hq] at h
  obtain ⟨h1, h2⟩ := List.append_inj h (by simp [le64])
  refine ⟨?_, le64_inj ha hb h1⟩
  simp only [List.cons.injEq, true_and] at h2
  simp only [buildPublicKeyHashScript, List.cons.injEq, true_and] at h2
  exact (List.append_inj h2 (by omega)).1

/-- A list of outputs serializes to the empty byte string only when it is
empty. -/
theorem serializeOutputs_eq_nil {outs : List TxOut}
    (h : serializeOutputs outs = []) : outs = [] := by
  cases outs with
  | nil => rfl
  | cons o rest =>
    exfalso
    simp [serializeOutputs, buildOutput, le64] at h

/-- Parsing the commitment: if a list of outputs (with 64-bit values)
serializes to exactly one canonical destination output for a 20-byte hash,
then the list is exactly that single output. -/
theorem outputs_of_commitment {outs : List TxOut} {pkh : Bytes} {a : Nat}
    (hp : pkh.length = 20) (ha : a < 18446744073709551616)
    (hv : ∀ o ∈ outs, o.value < 18446744073709551616)
    (h : serializeOutputs outs = buildPublicKeyHashOutput pkh a) :
    outs = [⟨buildPublicKeyHashScript pkh, a⟩] := by
  cases outs with
  | nil =>
    exfalso
    have hlen := congrArg List.length h
    rw [buildPublicKeyHashOutput_eq hp] at hlen
    simp [serializeOutputs, le64, buildPublicKeyHashScript_length hp] at hlen
  | cons o rest =>
    rw [buildPublicKeyHashOutput_eq hp] at h
    have h' : le64 o.value ++
        (varint o.script.length ++ (o.script ++ serializeOutputs rest)) =
        le64 a ++ (25 :: buildPublicKeyHashScript pkh) := by
      simpa [serializeOutputs, buildOutput, List.append_assoc] using h
    obtain ⟨h1, h2⟩ := List.append_inj h' (by simp [le64])
    have hval : o.value = a := le64_inj (hv o (by simp)) ha h1
    by_cases hsl : o.script.length < 253
    · rw [varint, if_pos hsl] at h2
      have h3 : o.script.length = 25 ∧
          o.script ++ serializeOutputs rest = buildPublicKeyHashScript pkh := by
        simpa using h2
      have h4 : o.script ++ serializeOutputs rest =
          buildPublicKeyHashScript pkh ++ ([] : Bytes) := by
        simpa using h3.2
      obtain ⟨h5, h6⟩ := List.append_inj h4
        (by rw [h3.1, buildPublicKeyHashScript_length hp])
      have hrest : rest = [] := serializeOutputs_eq_nil h6
      subst hrest
      cases o with
      | mk s v => simp_all
    · rw [varint, if_neg hsl] at h2
      split_ifs at h2 <;> simp at h2

/-! ## Lemmas about the UTF-8 codec -/

/-- Decoder step: a lead byte classified as a direct emission. -/
theorem utf8DecodeGo_lead_emit {b c : Nat} (rest : Bytes)
    (h : utf8Lead b = .emit c) :
    utf8DecodeGo none (b :: rest) = c :: utf8DecodeGo none rest := by
  simp only [utf8DecodeGo, h]

/-- Decoder step: a lead byte that opens a multi-byte sequence. -/
theorem utf8DecodeGo_lead_start {b cp n lo hi : Nat} (rest : Bytes)
    (h : utf8Lead b = .start cp n lo hi) :
    utf8DecodeGo none (b :: rest) = utf8DecodeGo (some (cp, n, lo, hi)) rest := by
  simp only [utf8DecodeGo, h]

/-- Decoder step: an in-range continuation byte with more bytes still
needed. -/
theorem utf8DecodeGo_cont {cp n lo hi b : Nat} (rest : Bytes)
    (hlo : lo ≤ b) (hhi : b ≤ hi) (hn : n ≠ 1) :
    utf8DecodeGo (some (cp, n, lo, hi)) (b :: rest) =
      utf8DecodeGo (some (cp * 64 + (b - 128), n - 1, 128, 191)) rest := by
  simp only [utf8DecodeGo, if_pos (And.intro hlo hhi), if_neg hn]

/-- Decoder step: the final in-range continuation byte emits the decoded
code point. -/
theorem utf8DecodeGo_last {cp lo hi b : Nat} (rest : Bytes)
    (hlo : lo ≤ b) (hhi : b ≤ hi) :
    utf8DecodeGo (some (cp, 1, lo, hi)) (b :: rest) =
      (cp * 64 + (b - 128)) :: utf8DecodeGo none rest := by
  simp only [utf8DecodeGo, if_pos (And.intro hlo hhi)]
  simp

/-- Lead classification: ASCII bytes emit themselves. -/
theorem utf8Lead_ascii {b : Nat} (h : b < 128) : utf8Lead b = .emit b := by
  unfold utf8Lead
  rw [if_pos h]

/-- Lead classification: C2–DF opens a two-byte sequence. -/
theorem utf8Lead_two {b : Nat} (h1 : 194 ≤ b) (h2 : b ≤ 223) :
    utf8Lead b = .start (b - 192) 1 128 191 := by
  unfold utf8Lead
  rw [if_neg (by omega), if_pos (And.intro h1 h2)]

/-- Lead classification: E0 opens a three-byte sequence with raised lower
boundary (excluding overlong forms). -/
theorem utf8Lead_e0 : utf8Lead 224 = .start 0 2 160 191 := by decide

/-- Lead classification: ED opens a three-byte sequence with lowered upper
boundary (excluding surrogates). -/
theorem utf8Lead_ed : utf8Lead 237 = .start 13 2 128 159 := by decide

/-- Lead classification: the remaining E1–EF leads open a generic
three-byte sequence. -/
theorem utf8Lead_three {b : Nat} (h1 : 225 ≤ b) (h2 : b ≤ 239)
    (h3 : b ≠ 237) : utf8Lead b = .start (b - 224) 2 128 191 := by
  unfold utf8Lead
  rw [if_neg (by omega), if_neg (by omega), if_neg (by omega), if_neg h3,
    if_pos (And.intro h1 h2)]

/-- Lead classification: F0 opens a four-byte sequence with raised lower
boundary (excluding overlong forms). -/
theorem utf8Lead_f0 : utf8Lead 240 = .start 0 3 144 191 := by decide

/-- Lead classification: F4 opens a four-byte sequence with lowered upper
boundary (excluding code points beyond U+10FFFF). -/
theorem utf8Lead_f4 : utf8Lead 244 = .start 4 3 128 143 := by decide

/-- Lead classification: F1–F3 open a generic four-byte sequence. -/
theorem utf8Lead_four {b : Nat} (h1 : 241 ≤ b) (h2 : b ≤ 243) :
    utf8Lead b = .start (b - 240) 3 128 191 := by
  unfold utf8Lead
  rw [if_neg (by omega), if_neg (by omega), if_neg (by omega),
    if_neg (by omega), if_neg (by omega), if_neg (by omega),
    if_neg (by omega), if_pos (And.intro h1 h2)]

/-- The replacement character\x27s bytes `EF BF BD` decode to U+FFFD. -/
theorem utf8DecodeGo_fffd (rest : Bytes) :
    utf8DecodeGo none (239 :: 191 :: 189 :: rest) =
      65533 :: utf8DecodeGo none rest := by
  simp [utf8DecodeGo, utf8Lead]

/-- Decoding an encoded character: the decoder consumes exactly the bytes
`utf8EncodeChar` produced and emits the sanitized code point, then
continues with the rest of the input. -/
theorem utf8DecodeGo_encodeChar (c : Nat) (rest : Bytes) :
    utf8DecodeGo none (utf8EncodeChar c ++ rest) =
      utf8Sanitize c :: utf8DecodeGo none rest := by
  by_cases h1 : c < 128
  · rw [show utf8EncodeChar c = [c] from by unfold utf8EncodeChar; rw [if_pos h1]]
    rw [show utf8Sanitize c = c from by
      unfold utf8Sanitize; rw [if_neg (by omega), if_pos (by omega)]]
    simpa using utf8DecodeGo_lead_emit rest (utf8Lead_ascii h1)
  · by_cases h2 : c < 2048
    · rw [show utf8EncodeChar c = [192 + c / 64, 128 + c % 64] from by
        unfold utf8EncodeChar; rw [if_neg h1, if_pos h2]]
      rw [show utf8Sanitize c = c from by
        unfold utf8Sanitize; rw [if_neg (by omega), if_pos (by omega)]]
      simp only [List.cons_append, List.nil_append]
      rw [utf8DecodeGo_lead_start _ (utf8Lead_two (by omega) (by omega))]
      rw [utf8DecodeGo_last rest (by omega) (by omega)]
      simp only [List.cons.injEq]
      exact ⟨by omega, trivial⟩
    · by_cases h3 : c < 65536
      · by_cases hs : 55296 ≤ c ∧ c ≤ 57343
        · rw [show utf8EncodeChar c = [239, 191, 189] from by
            unfold utf8EncodeChar; rw [if_neg h1, if_neg h2, if_pos h3, if_pos hs]]
          rw [show utf8Sanitize c = 65533 from by unfold utf8Sanitize; rw [if_pos hs]]
          simpa using utf8DecodeGo_fffd rest
        · rw [show utf8EncodeChar c =
              [224 + c / 4096, 128 + c / 64 % 64, 128 + c % 64] from by
            unfold utf8EncodeChar; rw [if_neg h1, if_neg h2, if_pos h3, if_neg hs]]
          rw [show utf8Sanitize c = c from by
            unfold utf8Sanitize; rw [if_neg hs, if_pos (by omega)]]
          simp only [List.cons_append, List.nil_append]
          by_cases hA : c < 4096
          · rw [show (224 + c / 4096 : Nat) = 224 from by omega]
            rw [utf8DecodeGo_lead_start _ utf8Lead_e0]
            rw [utf8DecodeGo_cont _ (by omega) (by omega) (by omega)]
            rw [utf8DecodeGo_last rest (by omega) (by omega)]
            simp only [List.cons.injEq]
            exact ⟨by omega, trivial⟩
          · by_cases hB : 53248 ≤ c ∧ c ≤ 55295
            · rw [show (224 + c / 4096 : Nat) = 237 from by omega]
              rw [utf8DecodeGo_lead_start _ utf8Lead_ed]
              rw [utf8DecodeGo_cont _ (by omega) (by omega) (by omega)]
              rw [utf8DecodeGo_last rest (by omega) (by omega)]
              simp only [List.cons.injEq]
              exact ⟨by omega, trivial⟩
            · rw [utf8DecodeGo_lead_start _
                (utf8Lead_three (by omega) (by omega) (by omega))]
              rw [utf8DecodeGo_cont _ (by omega) (by omega) (by omega)]
              rw [utf8DecodeGo_last rest (by omega) (by omega)]
              simp only [List.cons.injEq]
              exact ⟨by omega, trivial⟩
      · by_cases h4 : c < 1114112
        · rw [show utf8EncodeChar c =
              [240 + c / 262144, 128 + c / 4096 % 64, 128 + c / 64 % 64,
               128 + c % 64] from by
            unfold utf8EncodeChar; rw [if_neg h1, if_neg h2, if_neg h3, if_pos h4]]
          rw [show utf8Sanitize c = c from by
            unfold utf8Sanitize; rw [if_neg (by omega), if_pos h4]]
          simp only [List.cons_append, List.nil_append]
          by_cases hA : c < 262144
          · rw [show (240 + c / 262144 : Nat) = 240 from by omega]
            rw [utf8DecodeGo_lead_start _ utf8Lead_f0]
            rw [utf8DecodeGo_cont _ (by omega) (by omega) (by omega)]
            rw [utf8DecodeGo_cont _ (by omega) (by omega) (by omega)]
            rw [utf8DecodeGo_last rest (by omega) (by omega)]
            simp only [List.cons.injEq]
            exact ⟨by omega, trivial⟩
          · by_cases hB : 1048576 ≤ c
            · rw [show (240 + c / 262144 : Nat) = 244 from by omega]
              rw [utf8DecodeGo_lead_start _ utf8Lead_f4]
              rw [utf8DecodeGo_cont _ (by omega) (by omega) (by omega)]
              rw [utf8DecodeGo_cont _ (by omega) (by omega) (by omega)]
              rw [utf8DecodeGo_last rest (by omega) (by omega)]
              simp only [List.cons.injEq]
              exact ⟨by omega, trivial⟩
            · rw [utf8DecodeGo_lead_start _
                (utf8Lead_four (by omega) (by omega))]
              rw [utf8DecodeGo_cont _ (by omega) (by omega) (by omega)]
              rw [utf8DecodeGo_cont _ (by omega) (by omega) (by omega)]
              rw [utf8DecodeGo_last rest (by omega) (by omega)]
              simp only [List.cons.injEq]
              exact ⟨by omega, trivial⟩
        · rw [show utf8EncodeChar c = [239, 191, 189] from by
            unfold utf8EncodeChar; rw [if_neg h1, if_neg h2, if_neg h3, if_neg h4]]
          rw [show utf8Sanitize c = 65533 from by
            unfold utf8Sanitize; rw [if_neg (by omega), if_neg h4]]
          simpa using utf8DecodeGo_fffd rest

/-- The encoder processes a string one character at a time. -/
theorem utf8Encode_cons (c : Nat) (s : List Nat) :
    utf8Encode (c :: s) = utf8EncodeChar c ++ utf8Encode s := rfl

/-- Decoding an encoded string yields the sanitized string: scalar values
survive unchanged, lone surrogates and out-of-range values become
U+FFFD. -/
theorem utf8Decode_utf8Encode (s : List Nat) :
    utf8Decode (utf8Encode s) = s.map utf8Sanitize := by
  induction s with
  | nil => rfl
  | cons c s ih =>
    rw [utf8Encode_cons, List.map_cons]
    show utf8DecodeGo none (utf8EncodeChar c ++ utf8Encode s) = _
    rw [utf8DecodeGo_encodeChar]
    exact congrArg (utf8Sanitize c :: ·) ih

/-- Sanitizing a code point does not change its encoding: lone surrogates
encode to the replacement bytes, exactly as U+FFFD does. -/
theorem utf8EncodeChar_sanitize (c : Nat) :
    utf8EncodeChar (utf8Sanitize c) = utf8EncodeChar c := by
  by_cases hs : 55296 ≤ c ∧ c ≤ 57343
  · rw [show utf8Sanitize c = 65533 from by unfold utf8Sanitize; rw [if_pos hs]]
    rw [show utf8EncodeChar c = [239, 191, 189] from by
      unfold utf8EncodeChar
      rw [if_neg (by omega), if_neg (by omega), if_pos (by omega), if_pos hs]]
    decide
  · by_cases h4 : c < 1114112
    · rw [show utf8Sanitize c = c from by
        unfold utf8Sanitize; rw [if_neg hs, if_pos h4]]
    · rw [show utf8Sanitize c = 65533 from by
        unfold utf8Sanitize; rw [if_neg hs, if_neg h4]]
      rw [show utf8EncodeChar c = [239, 191, 189] from by
        unfold utf8EncodeChar
        rw [if_neg (by omega), if_neg (by omega), if_neg (by omega), if_neg h4]]
      decide

/-- Encoder output is a fixed point of the verifier\x27s lossy decode/re-encode
round trip: `Buffer.from(str, \x27utf8\x27)` bytes normalize to themselves. -/
theorem utf8Normalize_utf8Encode (s : List Nat) :
    utf8Normalize (utf8Encode s) = utf8Encode s := by
  unfold utf8Normalize
  rw [utf8Decode_utf8Encode]
  induction s with
  | nil => rfl
  | cons c s ih =>
    rw [List.map_cons, utf8Encode_cons, utf8Encode_cons,
      utf8EncodeChar_sanitize, ih]

/-! ## Concrete fixtures for counterexamples and witnesses -/

/-- A concrete 20-byte bondholder hash. -/
def pkhA : Bytes := List.replicate 20 1

/-- A concrete 20-byte slash-destination hash. -/
def pkhB : Bytes := List.replicate 20 4

/-- A concrete 20-byte requester hash. -/
def pkhC : Bytes := List.replicate 20 7

/-- A concrete 20-byte worker hash. -/
def pkhD : Bytes := List.replicate 20 8

/-- A concrete bond: bondholder key 2, lock-until height 100, slasher key 3.
(Mirrors the spec's scenario of a bond locked until block 100.) -/
def bondA : Bond := ⟨pkhA, 2, 100, 3, pkhB⟩

/-- A concrete escrow: requester key 5, worker key 6, timeout block 500.
(Mirrors the spec's scenario of an escrow timing out at block 500.) -/
def escrowA : Escrow := ⟨5, pkhC, 6, pkhD, 500⟩

/-! ## Theorems for the claims -/

/-- C1, counterexample. The claim says `Bond.release` succeeds whenever the
bondholder's signature verifies, the lock time has been reached, and a
payout amount satisfies `0 < amount ≤` the UTXO value, with the commitment
check enforcing payment of that amount. Concretely: bond value 10000,
amount 5000, valid signature, lock time exactly reached, and a transaction
committing to the single canonical output paying 5000 to the bondholder's
hash — every condition of the claim holds, yet `Bond.release` rejects,
because bond.ts line 71 commits to the full UTXO value (plus change) and
takes no amount parameter. -/
theorem C1_counterexample :
    checkSig ⟨2⟩ bondA.bondholderPub = true ∧
    bondA.lockUntil ≤ 100 ∧
    0 < 5000 ∧ 5000 ≤ 10000 ∧
    Bond.release bondA
      ⟨100, 10000, hash256 (buildPublicKeyHashOutput bondA.bondholderPkh 5000)⟩
      ⟨[], 0⟩ ⟨2⟩ = false := by
  decide

/-- C1, amended. `Bond.release` takes only a signature — no payout amount
exists in its interface. It succeeds exactly when the signature verifies
against the bondholder's public key, the enclosing transaction's lock time
is at least `lockUntil`, and the transaction's output commitment equals the
digest of one canonical output paying the full spent-UTXO value to the
bondholder's hash followed by the change output. -/
theorem C1_release_characterization (b : Bond) (ctx : ScriptContext)
    (chg : ChangeInfo) (sig : Sig) :
    Bond.release b ctx chg sig = true ↔
      (sig.signer = b.bondholderPub ∧ b.lockUntil ≤ ctx.locktime ∧
       ctx.hashOutputs = hash256
         (buildPublicKeyHashOutput b.bondholderPkh ctx.utxoValue ++
          buildChangeOutput chg)) := by
  simp [Bond.release, checkSig, and_assoc]

/-- C2. The transaction the bound `release` builder of release-bond.cjs
constructs does not satisfy `Bond.release`: at a bond of 10000 sats with
`lockUntil = 100` and current height 100, the builder produces a
transaction paying `10000 - 1000` sats to the bondholder with no change
output, whose SIGHASH_ALL `hashOutputs` digest differs from the digest the
predicate requires (the full 10000 sats to the bondholder plus change) —
so even with a valid bondholder signature and a satisfied time lock the
predicate evaluates to false, contradicting the claimed
correct-by-construction guarantee. -/
theorem C2_built_release_fails_predicate :
    releaseBondFlow pkhA 10000 100 100 = some (releaseBondTx pkhA 10000 100) ∧
    checkSig ⟨2⟩ bondA.bondholderPub = true ∧
    bondA.lockUntil ≤ (releaseBondTx pkhA 10000 100).nLockTime ∧
    Bond.release bondA
      ⟨(releaseBondTx pkhA 10000 100).nLockTime, 10000,
       txHashOutputs (releaseBondTx pkhA 10000 100)⟩
      ⟨[], 0⟩ ⟨2⟩ = false := by
  decide

/-- C3, counterexample. The claim includes `Bond.slash` among the
operations accepting any payout amount in `(0, utxoValue]` with the
commitment fixed to a single output paying that amount. Concretely: bond
value 10000, amount 7000, valid slasher signature, and a transaction
committing to the single canonical output paying 7000 to the slash
destination — the claim's conditions hold, yet `Bond.slash` rejects,
because bond.ts line 86 commits to the full UTXO value (plus change) and
takes no amount parameter. -/
theorem C3_counterexample :
    0 < 7000 ∧ 7000 ≤ 10000 ∧
    checkSig ⟨3⟩ bondA.slasherPub = true ∧
    Bond.slash bondA
      ⟨0, 10000, hash256 (buildPublicKeyHashOutput bondA.slashDestPkh 7000)⟩
      ⟨[], 0⟩ ⟨3⟩ = false := by
  decide

/-- C3, amended. The canonical-destination commitment digest is injective
in the recipient hash and amount (for 20-byte hashes and 64-bit amounts),
so a commitment to a different recipient or amount always fails digest
comparison. The escrow operations `approve`, `refund`, `timeout` accept
exactly the digest of one canonical output paying the chosen amount
(`0 < amount ≤ utxoValue`) to the operation's required recipient. The bond
operations `release` and `slash`, however, take no amount: any accepted
spend commits to the full spent-UTXO value paid to the bondholder
(respectively the slash destination) followed by the change output. -/
theorem C3_commitment_model :
    (∀ (pkh q : Bytes) (a b : Nat), pkh.length = 20 → q.length = 20 →
      a < 18446744073709551616 → b < 18446744073709551616 →
      (hash256 (buildPublicKeyHashOutput pkh a) =
        hash256 (buildPublicKeyHashOutput q b) ↔ (pkh = q ∧ a = b))) ∧
    (∀ (e : Escrow) (ctx : ScriptContext) (sig : Sig) (amount : Nat),
      Escrow.approve e ctx sig amount = true ↔
        (sig.signer = e.requesterPub ∧ 0 < amount ∧ amount ≤ ctx.utxoValue ∧
         ctx.hashOutputs =
           hash256 (buildPublicKeyHashOutput e.workerPkh amount))) ∧
    (∀ (e : Escrow) (ctx : ScriptContext) (sig : Sig) (amount : Nat),
      Escrow.refund e ctx sig amount = true ↔
        (sig.signer = e.workerPub ∧ 0 < amount ∧ amount ≤ ctx.utxoValue ∧
         ctx.hashOutputs =
           hash256 (buildPublicKeyHashOutput e.requesterPkh amount))) ∧
    (∀ (e : Escrow) (ctx : ScriptContext) (sig : Sig) (amount : Nat),
      Escrow.timeout e ctx sig amount = true ↔
        (sig.signer = e.requesterPub ∧ e.timeoutBlock ≤ ctx.locktime ∧
         0 < amount ∧ amount ≤ ctx.utxoValue ∧
         ctx.hashOutputs =
           hash256 (buildPublicKeyHashOutput e.requesterPkh amount))) ∧
    (∀ (b : Bond) (ctx : ScriptContext) (chg : ChangeInfo) (sig : Sig),
      Bond.release b ctx chg sig = true →
        ctx.hashOutputs = hash256
          (buildPublicKeyHashOutput b.bondholderPkh ctx.utxoValue ++
           buildChangeOutput chg)) ∧
    (∀ (b : Bond) (ctx : ScriptContext) (chg : ChangeInfo) (sig : Sig),
      Bond.slash b ctx chg sig = true →
        ctx.hashOutputs = hash256
          (buildPublicKeyHashOutput b.slashDestPkh ctx.utxoValue ++
           buildChangeOutput chg)) := by
  refine ⟨?_, ?_, ?_, ?_, ?_, ?_⟩
  · intro pkh q a b hp hq ha hb
    constructor
    · intro h
      exact buildPublicKeyHashOutput_inj hp hq ha hb (by simpa [hash256, sha256] using h)
    · rintro ⟨rfl, rfl⟩
      rfl
  · intro e ctx sig amount
    simp [Escrow.approve, checkSig, and_assoc]
  · intro e ctx sig amount
    simp [Escrow.refund, checkSig, and_assoc]
  · intro e ctx sig amount
    simp [Escrow.timeout, checkSig, and_assoc]
  · intro b ctx chg sig h
    simp [Bond.release, checkSig, and_assoc] at h
    exact h.2.2
  · intro b ctx chg sig h
    simp [Bond.slash, checkSig, and_assoc] at h
    exact h.2

/-- Witness for C3: the injectivity component at a concrete hash and
amount, and the `Bond.slash` full-value-commitment component at a concrete
accepted slash. -/
theorem C3_commitment_model_witness :
    (hash256 (buildPublicKeyHashOutput pkhA 5000) =
      hash256 (buildPublicKeyHashOutput pkhA 5000) ↔
      (pkhA = pkhA ∧ 5000 = 5000)) ∧
    (ScriptContext.hashOutputs
      ⟨0, 10000, hash256 (buildPublicKeyHashOutput bondA.slashDestPkh 10000 ++
        buildChangeOutput ⟨[], 0⟩)⟩ =
      hash256 (buildPublicKeyHashOutput bondA.slashDestPkh 10000 ++
        buildChangeOutput ⟨[], 0⟩)) :=
  ⟨C3_commitment_model.1 pkhA pkhA 5000 5000 (by decide) (by decide)
      (by decide) (by decide),
   C3_commitment_model.2.2.2.2.2 bondA
      ⟨0, 10000, hash256 (buildPublicKeyHashOutput bondA.slashDestPkh 10000 ++
        buildChangeOutput ⟨[], 0⟩)⟩
      ⟨[], 0⟩ ⟨3⟩ (by decide)⟩

/-- C5. `Bond.release` and `Escrow.timeout` reject any spend whose
transaction lock time is strictly below the contract's threshold
(`lockUntil` / `timeoutBlock`), and — with the signature and commitment
(and, for timeout, the amount range) in order — accept a spend whose lock
time equals exactly the threshold: the boundary is inclusive. -/
theorem C5_locktime_boundary :
    (∀ (b : Bond) (ctx : ScriptContext) (chg : ChangeInfo) (sig : Sig),
      ctx.locktime < b.lockUntil → Bond.release b ctx chg sig = false) ∧
    (∀ (b : Bond) (ctx : ScriptContext) (chg : ChangeInfo) (sig : Sig),
      sig.signer = b.bondholderPub → ctx.locktime = b.lockUntil →
      ctx.hashOutputs = hash256
        (buildPublicKeyHashOutput b.bondholderPkh ctx.utxoValue ++
         buildChangeOutput chg) →
      Bond.release b ctx chg sig = true) ∧
    (∀ (e : Escrow) (ctx : ScriptContext) (sig : Sig) (amount : Nat),
      ctx.locktime < e.timeoutBlock → Escrow.timeout e ctx sig amount = false) ∧
    (∀ (e : Escrow) (ctx : ScriptContext) (sig : Sig) (amount : Nat),
      sig.signer = e.requesterPub → ctx.locktime = e.timeoutBlock →
      0 < amount → amount ≤ ctx.utxoValue →
      ctx.hashOutputs = hash256 (buildPublicKeyHashOutput e.requesterPkh amount) →
      Escrow.timeout e ctx sig amount = true) := by
  refine ⟨?_, ?_, ?_, ?_⟩
  · intro b ctx chg sig h
    simp [Bond.release, checkSig]
    omega
  · intro b ctx chg sig hsig htime hdig
    simp [Bond.release, checkSig, hsig, htime, hdig]
  · intro e ctx sig amount h
    simp [Escrow.timeout, checkSig]
    omega
  · intro e ctx sig amount hsig htime h0 hle hdig
    simp [Escrow.timeout, checkSig, hsig, htime, h0, hle, hdig]

/-- Witness for C5: the bond of the spec's concrete scenario (lock-until
100, value 10000) is rejected at lock time 99 and accepted at exactly lock
time 100; the escrow (timeout block 500, value 20000) is rejected at lock
time 499 and accepted at exactly 500. -/
theorem C5_locktime_boundary_witness :
    Bond.release bondA ⟨99, 10000, []⟩ ⟨[], 0⟩ ⟨2⟩ = false ∧
    Bond.release bondA
      ⟨100, 10000, hash256 (buildPublicKeyHashOutput bondA.bondholderPkh 10000 ++
        buildChangeOutput ⟨[], 0⟩)⟩ ⟨[], 0⟩ ⟨2⟩ = true ∧
    Escrow.timeout escrowA ⟨499, 20000, []⟩ ⟨5⟩ 19500 = false ∧
    Escrow.timeout escrowA
      ⟨500, 20000, hash256 (buildPublicKeyHashOutput escrowA.requesterPkh 19500)⟩
      ⟨5⟩ 19500 = true :=
  ⟨C5_locktime_boundary.1 bondA ⟨99, 10000, []⟩ ⟨[], 0⟩ ⟨2⟩ (by decide),
   C5_locktime_boundary.2.1 bondA
     ⟨100, 10000, hash256 (buildPublicKeyHashOutput bondA.bondholderPkh 10000 ++
       buildChangeOutput ⟨[], 0⟩)⟩ ⟨[], 0⟩ ⟨2⟩ (by decide) (by decide) rfl,
   C5_locktime_boundary.2.2.1 escrowA ⟨499, 20000, []⟩ ⟨5⟩ 19500 (by decide),
   C5_locktime_boundary.2.2.2 escrowA
     ⟨500, 20000, hash256 (buildPublicKeyHashOutput escrowA.requesterPkh 19500)⟩
     ⟨5⟩ 19500 (by decide) (by decide) (by decide) (by decide) rfl⟩

/-- C6. For the time-gated operations, the CLI builders set the built
transaction's `nLockTime` to the current chain height — which, on the only
path where the builder runs, is at least the contract's threshold — and set
the spent input's sequence field to `0xFFFFFFFE`, not the disabled value
`0xFFFFFFFF`, so ledger-level lock-time enforcement stays active. -/
theorem C6_builder_time_fields :
    (∀ (pkh : Bytes) (amt lockUntil h : Nat) (tx : BuiltTx),
      releaseBondFlow pkh amt lockUntil h = some tx →
        lockUntil ≤ tx.nLockTime ∧ tx.inputSequence ≠ 4294967295) ∧
    (∀ (pkh : Bytes) (amt timeoutBlock h : Nat) (tx : BuiltTx),
      timeoutEscrowFlow pkh amt timeoutBlock h = some tx →
        timeoutBlock ≤ tx.nLockTime ∧ tx.inputSequence ≠ 4294967295) := by
  constructor
  · intro pkh amt lockUntil h tx heq
    rw [releaseBondFlow] at heq
    split at heq
    · exact absurd heq (by simp)
    · cases heq
      refine ⟨by simpa [releaseBondTx] using by omega, by simp [releaseBondTx]⟩
  · intro pkh amt timeoutBlock h tx heq
    rw [timeoutEscrowFlow] at heq
    split at heq
    · exact absurd heq (by simp)
    · cases heq
      refine ⟨by simpa [timeoutEscrowTx] using by omega, by simp [timeoutEscrowTx]⟩

/-- Witness for C6: the release flow at bond value 10000, lock-until 100,
current height 100, and the timeout flow at escrow value 20000, timeout
block 500, current height 700. -/
theorem C6_builder_time_fields_witness :
    (100 ≤ (releaseBondTx pkhA 10000 100).nLockTime ∧
      (releaseBondTx pkhA 10000 100).inputSequence ≠ 4294967295) ∧
    (500 ≤ (timeoutEscrowTx pkhC 20000 700).nLockTime ∧
      (timeoutEscrowTx pkhC 20000 700).inputSequence ≠ 4294967295) :=
  ⟨C6_builder_time_fields.1 pkhA 10000 100 100
      (releaseBondTx pkhA 10000 100) (by decide),
   C6_builder_time_fields.2 pkhC 20000 500 700
      (timeoutEscrowTx pkhC 20000 700) (by decide)⟩

/-- When a transaction's committed-outputs digest is honestly computed from
its output list and matches a single canonical destination output, the
output list is exactly that single output and its total value is exactly
the destination amount. -/
theorem commitment_forces_single_output {outs : List TxOut}
    {ctx : ScriptContext} {pkh : Bytes} {amount : Nat}
    (hctx : ctx.hashOutputs = hash256 (serializeOutputs outs))
    (hv : ∀ o ∈ outs, o.value < 18446744073709551616)
    (hp : pkh.length = 20) (ha : amount < 18446744073709551616)
    (hdig : ctx.hashOutputs = hash256 (buildPublicKeyHashOutput pkh amount)) :
    outs = [⟨buildPublicKeyHashScript pkh, amount⟩] ∧
    totalValue outs = amount := by
  have hser : serializeOutputs outs = buildPublicKeyHashOutput pkh amount := by
    have := hctx.symm.trans hdig
    simpa [hash256, sha256] using this
  have houts := outputs_of_commitment hp ha hv hser
  exact ⟨houts, by simp [houts, totalValue]⟩

/-- C10. Every escrow spend commits to exactly one output: whenever the
spending transaction's `hashOutputs` is the ledger's digest of its own
output list and `approve` / `refund` / `timeout` accepts, the transaction's
output list is exactly the single canonical destination output of the
chosen amount — so a transaction carrying any additional output (for
example a change output) fails the commitment check, the total paid out is
exactly `amount`, and the remaining `utxoValue - amount` is necessarily
left as miner fee. -/
theorem C10_escrow_single_output :
    ∀ (e : Escrow) (outs : List TxOut) (ctx : ScriptContext) (sig : Sig)
      (amount : Nat),
      ctx.hashOutputs = hash256 (serializeOutputs outs) →
      (∀ o ∈ outs, o.value < 18446744073709551616) →
      amount < 18446744073709551616 →
      ((e.workerPkh.length = 20 → Escrow.approve e ctx sig amount = true →
        outs = [⟨buildPublicKeyHashScript e.workerPkh, amount⟩] ∧
        totalValue outs = amount ∧ amount ≤ ctx.utxoValue) ∧
       (e.requesterPkh.length = 20 → Escrow.refund e ctx sig amount = true →
        outs = [⟨buildPublicKeyHashScript e.requesterPkh, amount⟩] ∧
        totalValue outs = amount ∧ amount ≤ ctx.utxoValue) ∧
       (e.requesterPkh.length = 20 → Escrow.timeout e ctx sig amount = true →
        outs = [⟨buildPublicKeyHashScript e.requesterPkh, amount⟩] ∧
        totalValue outs = amount ∧ amount ≤ ctx.utxoValue)) := by
  intro e outs ctx sig amount hctx hv ha
  refine ⟨?_, ?_, ?_⟩
  · intro hp hacc
    simp [Escrow.approve, checkSig, and_assoc] at hacc
    obtain ⟨h1, h2⟩ := commitment_forces_single_output hctx hv hp ha hacc.2.2.2
    exact ⟨h1, h2, hacc.2.2.1⟩
  · intro hp hacc
    simp [Escrow.refund, checkSig, and_assoc] at hacc
    obtain ⟨h1, h2⟩ := commitment_forces_single_output hctx hv hp ha hacc.2.2.2
    exact ⟨h1, h2, hacc.2.2.1⟩
  · intro hp hacc
    simp [Escrow.timeout, checkSig, and_assoc] at hacc
    obtain ⟨h1, h2⟩ := commitment_forces_single_output hctx hv hp ha hacc.2.2.2.2
    exact ⟨h1, h2, hacc.2.2.2.1⟩

/-- Witness for C10: a concrete accepted `approve` of 15000 sats out of a
20000-sat escrow pays the worker exactly 15000 in a single output, leaving
5000 as fee. -/
theorem C10_escrow_single_output_witness :
    [(⟨buildPublicKeyHashScript pkhD, 15000⟩ : TxOut)] =
      [⟨buildPublicKeyHashScript escrowA.workerPkh, 15000⟩] ∧
    totalValue [⟨buildPublicKeyHashScript pkhD, 15000⟩] = 15000 ∧
    15000 ≤ ScriptContext.utxoValue
      ⟨0, 20000,
       hash256 (serializeOutputs [⟨buildPublicKeyHashScript pkhD, 15000⟩])⟩ :=
  (C10_escrow_single_output escrowA
    [⟨buildPublicKeyHashScript pkhD, 15000⟩]
    ⟨0, 20000,
     hash256 (serializeOutputs [⟨buildPublicKeyHashScript pkhD, 15000⟩])⟩
    ⟨5⟩ 15000 rfl (by decide) (by decide)).1 (by decide) (by decide)

/-- After the malformed-record checks have passed, the verifier's remaining
flow can only end in a bond-lookup, input, or signature outcome — never in
one of the two malformed-record exits. -/
theorem verifyFields_ne_malformed (p : List Bytes) (bt : Option BondTxInfo)
    (s : Option Bytes) (c : List (Option Bytes)) :
    verifyFields p bt s c ≠ .notEnoughPushes ∧
    verifyFields p bt s c ≠ .wrongTag := by
  constructor <;>
  · unfold verifyFields
    repeat' split
    all_goals simp

/-- C7. The ASSERT1 verifier, handed a data output's pushes, exits through
a malformed-record report — and never reaches field extraction or
signature verification — exactly when fewer than five pushes are present
or the first push is not the literal tag `ASSERT1`. -/
theorem C7_malformed_iff (dataPushes : List Bytes) (bt : Option BondTxInfo)
    (spentTxid : Option Bytes) (inputChunks : List (Option Bytes)) :
    (verifyMain dataPushes bt spentTxid inputChunks = .notEnoughPushes ∨
     verifyMain dataPushes bt spentTxid inputChunks = .wrongTag) ↔
    (dataPushes.length < 5 ∨ dataPushes.getD 0 [] ≠ assertTag) := by
  unfold verifyMain
  by_cases h1 : dataPushes.length < 5
  · simp [h1]
  · by_cases h2 : dataPushes[0]?.getD [] = assertTag
    · have hne := verifyFields_ne_malformed dataPushes bt spentTxid inputChunks
      simp [h1, h2, hne.1, hne.2]
    · simp [h1, h2]

/-- C9. The verifier's malformed check admits records with exactly five
pushes, yet the signature is read from the sixth push: for a record of
exactly five pushes whose first push is the correct tag (and whose
referenced bond is found and whose spending input exposes a public key),
the malformed check passes, `dataPushes[5]` is absent, and the run
terminates through the signature-error exit, not the malformed-record
report. -/
theorem C9_five_pushes_sig_error (p1 p2 p3 p4 : Bytes) (bt : BondTxInfo)
    (spentTxid : Option Bytes) (c0 : Option Bytes) (pk : PubKey) :
    verifyMain [assertTag, p1, p2, p3, p4] (some bt) spentTxid
      [c0, some [pk]] = .sigError := by
  simp [verifyMain, verifyFields, pubKeyFromBytes, assertTag]

/-- C4, counterexample. The claim says verification returns false if any
single byte of the topic is altered after signing. But the verifier hashes
the lossy UTF-8 decode/re-encode of the topic push, not its raw bytes: for
the topic string `"\uFFFD"` (code point 65533) the encoder stores the push
`EF BF BD` and signs its digest; altering the single byte `EF` to `F0`
yields `F0 BF BD`, a truncated four-byte sequence that decodes to the same
single replacement character and re-encodes to the signed bytes `EF BF BD`
— the verifier reports the record VERIFIED (signature valid, bond backing
intact) despite the altered byte. -/
theorem C4_counterexample :
    decodedTopic (encodeAssertPushes [1, 2] [65533] [20] 9) =
      [239, 191, 189] ∧
    (239 : Nat) ≠ 240 ∧
    verifyMain ((encodeAssertPushes [1, 2] [65533] [20] 9).set 3
        (([239, 191, 189] : Bytes).set 0 240)) (some ⟨some 5000⟩) none
      [none, some (pubKeyToBytes (pubKeyOf 9))] = .verified (some 5000) := by
  decide

/-- C4, amended. Round-trip: decoding an encoder-produced record reproduces
the bond txid exactly and the topic and claim strings up to the encoder's
own sanitization (lone surrogates become U+FFFD; actual Unicode strings
are reproduced exactly), and the full verifier run reports the signature
valid with the bond's value as backing. Tamper-evidence: altering any
single byte of the stored (little-endian) bond txid makes verification
fail, since the txid's hex round trip is lossless; replacing the stored
topic or claim push verifies exactly when the replacement's lossy UTF-8
decode/re-encode normalization equals the signed bytes — any alteration
that changes the normalization (in particular every single-byte alteration
of a normalization-canonical push that stays canonical) is reported as
signature-invalid, while alterations that normalize back to the signed
bytes (possible via replacement-character aliasing) still verify. -/
theorem C4_normalized_roundtrip_and_tamper (b t cl : List Nat) (k : PrivKey)
    (bt : BondTxInfo) (c0 : Option Bytes) :
    decodedBondTxid (encodeAssertPushes b t cl k) = b ∧
    decodedTopicStr (encodeAssertPushes b t cl k) = t.map utf8Sanitize ∧
    decodedClaimStr (encodeAssertPushes b t cl k) = cl.map utf8Sanitize ∧
    verifyMain (encodeAssertPushes b t cl k) (some bt) none
      [c0, some (pubKeyToBytes (pubKeyOf k))] =
      .verified (some (bt.vout0Sats.getD 0)) ∧
    (∀ (i y : Nat) (hi : i < b.reverse.length), y ≠ b.reverse[i] →
      verifyMain ((encodeAssertPushes b t cl k).set 2 (b.reverse.set i y))
        (some bt) none [c0, some (pubKeyToBytes (pubKeyOf k))] =
        .sigInvalid) ∧
    (∀ p3 : Bytes,
      verifyMain ((encodeAssertPushes b t cl k).set 3 p3) (some bt) none
        [c0, some (pubKeyToBytes (pubKeyOf k))] =
        if utf8Normalize p3 = utf8Encode t then
          .verified (some (bt.vout0Sats.getD 0)) else .sigInvalid) ∧
    (∀ p4 : Bytes,
      verifyMain ((encodeAssertPushes b t cl k).set 4 p4) (some bt) none
        [c0, some (pubKeyToBytes (pubKeyOf k))] =
        if utf8Normalize p4 = utf8Encode cl then
          .verified (some (bt.vout0Sats.getD 0)) else .sigInvalid) := by
  refine ⟨?_, ?_, ?_, ?_, ?_, ?_, ?_⟩
  · simp [decodedBondTxid, encodeAssertPushes]
  · simp [decodedTopicStr, decodedTopic, encodeAssertPushes,
      utf8Decode_utf8Encode]
  · simp [decodedClaimStr, decodedClaim, encodeAssertPushes,
      utf8Decode_utf8Encode]
  · simp [verifyMain, verifyFields, encodeAssertPushes, assertTag,
      decodedBondTxid, decodedTopic, decodedClaim, pubKeyToBytes, pubKeyOf,
      pubKeyFromBytes, sigToDER, sigFromDER, ecdsaSign, ecdsaVerify, sha256,
      utf8Normalize_utf8Encode]
  · intro i y hi hy
    have hne : b ++ (utf8Encode t ++ utf8Encode cl) ≠
        (b.reverse.set i y).reverse ++ (utf8Encode t ++ utf8Encode cl) := by
      intro h
      have h1 : b = (b.reverse.set i y).reverse :=
        (List.append_inj h (by simp)).1
      have h2 : b.reverse = b.reverse.set i y := by
        simpa using congrArg List.reverse h1
      have h3 := List.getElem_of_eq h2 hi
      rw [List.getElem_set_self] at h3
      exact hy h3.symm
    simp [verifyMain, verifyFields, encodeAssertPushes, assertTag,
      decodedBondTxid, decodedTopic, decodedClaim, pubKeyToBytes, pubKeyOf,
      pubKeyFromBytes, sigToDER, sigFromDER, ecdsaSign, ecdsaVerify, sha256,
      utf8Normalize_utf8Encode, hne]
  · intro p3
    by_cases hp : utf8Normalize p3 = utf8Encode t
    · simp [verifyMain, verifyFields, encodeAssertPushes, assertTag,
        decodedBondTxid, decodedTopic, decodedClaim, pubKeyToBytes, pubKeyOf,
        pubKeyFromBytes, sigToDER, sigFromDER, ecdsaSign, ecdsaVerify, sha256,
        utf8Normalize_utf8Encode, hp]
    · have hne : b ++ (utf8Encode t ++ utf8Encode cl) ≠
          b ++ (utf8Normalize p3 ++ utf8Encode cl) := by
        intro h
        have h1 : utf8Encode t ++ utf8Encode cl =
            utf8Normalize p3 ++ utf8Encode cl := by simpa using h
        exact hp ((List.append_inj' h1 rfl).1).symm
      simp [verifyMain, verifyFields, encodeAssertPushes, assertTag,
        decodedBondTxid, decodedTopic, decodedClaim, pubKeyToBytes, pubKeyOf,
        pubKeyFromBytes, sigToDER, sigFromDER, ecdsaSign, ecdsaVerify, sha256,
        utf8Normalize_utf8Encode, hne, hp]
  · intro p4
    by_cases hp : utf8Normalize p4 = utf8Encode cl
    · simp [verifyMain, verifyFields, encodeAssertPushes, assertTag,
        decodedBondTxid, decodedTopic, decodedClaim, pubKeyToBytes, pubKeyOf,
        pubKeyFromBytes, sigToDER, sigFromDER, ecdsaSign, ecdsaVerify, sha256,
        utf8Normalize_utf8Encode, hp]
    · have hne : b ++ (utf8Encode t ++ utf8Encode cl) ≠
          b ++ (utf8Encode t ++ utf8Normalize p4) := by
        intro h
        have h1 : utf8Encode cl = utf8Normalize p4 := by simpa using h
        exact hp h1.symm
      simp [verifyMain, verifyFields, encodeAssertPushes, assertTag,
        decodedBondTxid, decodedTopic, decodedClaim, pubKeyToBytes, pubKeyOf,
        pubKeyFromBytes, sigToDER, sigFromDER, ecdsaSign, ecdsaVerify, sha256,
        utf8Normalize_utf8Encode, hne, hp]

/-- Witness for C4: altering one byte of a concrete record's stored bond
txid is reported signature-invalid, and so is replacing its topic push by
bytes whose normalization differs from the signed bytes. -/
theorem C4_normalized_roundtrip_and_tamper_witness :
    verifyMain ((encodeAssertPushes [1, 2] [10] [20] 9).set 2
        ((([1, 2] : Bytes).reverse).set 0 5)) (some ⟨some 5000⟩) none
      [none, some (pubKeyToBytes (pubKeyOf 9))] = .sigInvalid ∧
    verifyMain ((encodeAssertPushes [1, 2] [10] [20] 9).set 3 [99])
      (some ⟨some 5000⟩) none
      [none, some (pubKeyToBytes (pubKeyOf 9))] = .sigInvalid := by
  constructor
  · exact (C4_normalized_roundtrip_and_tamper [1, 2] [10] [20] 9
      ⟨some 5000⟩ none).2.2.2.2.1 0 5 (by decide) (by decide)
  · have h := (C4_normalized_roundtrip_and_tamper [1, 2] [10] [20] 9
      ⟨some 5000⟩ none).2.2.2.2.2.1 [99]
    rw [if_neg (by decide)] at h
    exact h


/-- C8. Credibility tracks the bond's query-time liveness: for the same
assertion record, when the chain oracle reports the bond's output 0 unspent
the verifier reports the signature valid with the bond's value as backing,
and when the oracle reports it spent the verifier still reports the
signature valid but with no backing. The outcome is a pure function of the
query-time spent status — nothing about liveness is stored in the record. -/
theorem C8_backing_iff_unspent (b t c : Bytes) (k : PrivKey)
    (bt : BondTxInfo) (spentTxid : Bytes) (c0 : Option Bytes) :
    verifyMain (encodeAssertPushes b t c k) (some bt) none
      [c0, some (pubKeyToBytes (pubKeyOf k))] =
      .verified (some (bt.vout0Sats.getD 0)) ∧
    verifyMain (encodeAssertPushes b t c k) (some bt) (some spentTxid)
      [c0, some (pubKeyToBytes (pubKeyOf k))] = .verified none := by
  constructor <;>
    simp [verifyMain, verifyFields, encodeAssertPushes, assertTag,
      decodedBondTxid, decodedTopic, decodedClaim, pubKeyToBytes, pubKeyOf,
      pubKeyFromBytes, sigToDER, sigFromDER, ecdsaSign, ecdsaVerify, sha256,
      utf8Normalize_utf8Encode]
